import Mathlib

/-!
# Verification of `recom.py` (`EnhancedVideoRecommender`)

A shallow embedding of the content-based video recommender: per-field
TF-IDF vectorization (scikit-learn `TfidfVectorizer`), weighted combined
cosine similarity, and the ranking/filtering loop of
`get_recommendations`, together with corpus management (`fit`,
`add_new_videos`).

Modeling conventions:

* Python floats are modeled as exact rationals (`ℚ`).  No claim under
  verification depends on binary floating-point rounding.
* The IDF weights (`ln ((1+n)/(1+df)) + 1`) and the inverse L2 norms used
  by `cosine_similarity` are irrational in general, so they cannot be
  rational constants.  They are abstracted as parameters: an `IdfValues`
  record of per-term weights and a `NormScales` record of inverse-norm
  scale factors (query-side and row-side).  Cached corpus rows are stored
  as IDF-weighted term-count vectors; `cosine_similarity(u, v)`, which
  scikit-learn computes as `⟨u/‖u‖, v/‖v‖⟩` (with a zero norm replaced by
  1, so a zero vector yields similarity 0 rather than a division error),
  is modeled as `qScale * rowScale * dotQ u v`.  Theorems quantify over
  all scale values; concrete evaluations instantiate inputs (one-hot or
  zero vectors) for which the true scale factors are the rationals used.
* `numpy.argsort` (default sort) is deterministic and, on the small
  arrays arising here, a stable ascending sort (insertion sort for short
  arrays); it is modeled as sorting indices by the key
  (value ascending, index ascending).  The code then reverses it
  (`[::-1]`).
* Python's `round` (banker's rounding) is modeled as exact
  round-half-to-even on rationals.
* `TfidfVectorizer.fit` raising `ValueError` on an empty vocabulary (and
  after `max_df` pruning removes every term) is modeled with
  `Except String`.
* String operations are implemented over `String.data` (`List Char`) so
  that every definition evaluates by kernel reduction; they agree with
  Python `str.lower` / `str.split` / `' '.join` on the ASCII corpora
  considered.
-/

namespace VideoRecommender

/-! ## Text normalization: `preprocess_text`, and the sklearn analyzer -/

/-- Python `str.lower`, per character (ASCII-faithful). -/
def lowerStr (s : String) : String := String.mk (s.data.map Char.toLower)

/-- Maximal runs of characters satisfying `p`; `cur` is the current run,
reversed.  Characters failing `p` separate runs and are dropped. -/
def charRuns (p : Char → Bool) : List Char → List Char → List (List Char)
  | cur, [] => if cur = [] then [] else [cur.reverse]
  | cur, c :: cs =>
    if p c then charRuns p (c :: cur) cs
    else if cur = [] then charRuns p [] cs
    else cur.reverse :: charRuns p [] cs

/-- Python `str.split()` with no argument: split on whitespace runs,
dropping empty pieces. -/
def whitespaceTokens (s : String) : List String :=
  (charRuns (fun c => !c.isWhitespace) [] s.data).map String.mk

/-- Python `' '.join`. -/
def joinSpace : List String → String
  | [] => ""
  | [t] => t
  | t :: ts => t ++ " " ++ joinSpace ts

/-- `preprocess_text`: lowercase, strip, and collapse internal whitespace
runs to single spaces (`' '.join(text.split())`; the `strip` is subsumed
by the argument-less `split`). -/
def preprocessText (text : String) : String :=
  joinSpace (whitespaceTokens (lowerStr text))

/-- A word character, as in the regex `\w` (ASCII-faithful). -/
def isWordChar (c : Char) : Bool := c.isAlphanum || c == '_'

/-- sklearn's default `token_pattern` `\b\w\w+\b`: maximal runs of word
characters of length at least 2. -/
def wordTokens (s : String) : List String :=
  ((charRuns isWordChar [] s.data).map String.mk).filter
    (fun t => 2 ≤ t.data.length)

/-- sklearn's frozen `ENGLISH_STOP_WORDS` list, used by the title and
description vectorizers via `stop_words='english'`. -/
def englishStopWords : List String :=
  ["a", "about", "above", "across", "after", "afterwards", "again",
   "against", "all", "almost", "alone", "along", "already", "also",
   "although", "always", "am", "among", "amongst", "amoungst", "amount",
   "an", "and", "another", "any", "anyhow", "anyone", "anything",
   "anyway", "anywhere", "are", "around", "as", "at", "back", "be",
   "became", "because", "become", "becomes", "becoming", "been",
   "before", "beforehand", "behind", "being", "below", "beside",
   "besides", "between", "beyond", "bill", "both", "bottom", "but",
   "by", "call", "can", "cannot", "cant", "co", "con", "could",
   "couldnt", "cry", "de", "describe", "detail", "do", "done", "down",
   "due", "during", "each", "eg", "eight", "either", "eleven", "else",
   "elsewhere", "empty", "enough", "etc", "even", "ever", "every",
   "everyone", "everything", "everywhere", "except", "few", "fifteen",
   "fifty", "fill", "find", "fire", "first", "five", "for", "former",
   "formerly", "forty", "found", "four", "from", "front", "full",
   "further", "get", "give", "go", "had", "has", "hasnt", "have", "he",
   "hence", "her", "here", "hereafter", "hereby", "herein", "hereupon",
   "hers", "herself", "him", "himself", "his", "how", "however",
   "hundred", "i", "ie", "if", "in", "inc", "indeed", "interest",
   "into", "is", "it", "its", "itself", "keep", "last", "latter",
   "latterly", "least", "less", "ltd", "made", "many", "may", "me",
   "meanwhile", "might", "mill", "mine", "more", "moreover", "most",
   "mostly", "move", "much", "must", "my", "myself", "name", "namely",
   "neither", "never", "nevertheless", "next", "nine", "no", "nobody",
   "none", "noone", "nor", "not", "nothing", "now", "nowhere", "of",
   "off", "often", "on", "once", "one", "only", "onto", "or", "other",
   "others", "otherwise", "our", "ours", "ourselves", "out", "over",
   "own", "part", "per", "perhaps", "please", "put", "rather", "re",
   "same", "see", "seem", "seemed", "seeming", "seems", "serious",
   "several", "she", "should", "show", "side", "since", "sincere",
   "six", "sixty", "so", "some", "somehow", "someone", "something",
   "sometime", "sometimes", "somewhere", "still", "such", "system",
   "take", "ten", "than", "that", "the", "their", "them", "themselves",
   "then", "thence", "there", "thereafter", "thereby", "therefore",
   "therein", "thereupon", "these", "they", "thick", "thin", "third",
   "this", "those", "though", "three", "through", "throughout", "thru",
   "thus", "to", "together", "too", "top", "toward", "towards",
   "twelve", "twenty", "two", "un", "under", "until", "up", "upon",
   "us", "very", "via", "was", "we", "well", "were", "what", "whatever",
   "when", "whence", "whenever", "where", "whereafter", "whereas",
   "whereby", "wherein", "whereupon", "wherever", "whether", "which",
   "while", "whither", "who", "whoever", "whole", "whom", "whose",
   "why", "will", "with", "within", "without", "would", "yet", "you",
   "your", "yours", "yourself", "yourselves"]

/-- All contiguous `n`-grams of `toks`, joined by single spaces
(sklearn `_word_ngrams`). -/
def ngramsOf (n : Nat) (toks : List String) : List String :=
  (List.range (toks.length + 1 - n)).map
    (fun i => joinSpace ((toks.drop i).take n))

/-- The per-field `TfidfVectorizer` configuration. -/
structure VectorizerConfig where
  useStopWords : Bool
  ngramMax : Nat
  maxFeatures : Option Nat
  maxDf : Option ℚ
deriving DecidableEq

/-- `title_vectorizer`: lowercase, English stop words, n-grams (1, 2),
`max_features=5000`. -/
def titleConfig : VectorizerConfig :=
  { useStopWords := true, ngramMax := 2, maxFeatures := some 5000, maxDf := none }

/-- `description_vectorizer`: lowercase, English stop words, n-grams
(1, 2), `max_features=10000`, `max_df=0.7`. -/
def descriptionConfig : VectorizerConfig :=
  { useStopWords := true, ngramMax := 2, maxFeatures := some 10000,
    maxDf := some (7/10) }

/-- `category_vectorizer`: lowercase, no stop words, unigrams only. -/
def categoryConfig : VectorizerConfig :=
  { useStopWords := false, ngramMax := 1, maxFeatures := none, maxDf := none }

/-- The sklearn analyzer for word n-grams: lowercase, tokenize by
`\b\w\w+\b`, remove stop words, then form 1..`ngramMax`-grams. -/
def analyze (cfg : VectorizerConfig) (text : String) : List String :=
  let toks := wordTokens (lowerStr text)
  let toks := if cfg.useStopWords
    then toks.filter (fun t => !(englishStopWords.contains t))
    else toks
  (List.range cfg.ngramMax).flatMap (fun n => ngramsOf (n + 1) toks)

/-! ## Vocabulary construction (`fit`) -/

/-- Lexicographic comparison by character code, as Python `sorted` on
strings. -/
def charListLe : List Char → List Char → Bool
  | [], _ => true
  | _ :: _, [] => false
  | a :: as, b :: bs =>
    if a.toNat < b.toNat then true
    else if b.toNat < a.toNat then false
    else charListLe as bs

/-- String comparison used to sort the vocabulary alphabetically. -/
def strLe (a b : String) : Bool := charListLe a.data b.data

/-- Insertion into a list sorted by `le`. -/
def insertBy (le : String → String → Bool) (s : String) :
    List String → List String
  | [] => [s]
  | t :: ts => if le s t then s :: t :: ts else t :: insertBy le s ts

/-- Insertion sort by `le` (a correct sort; which algorithm sklearn uses
to order the vocabulary is immaterial, only the resulting order is). -/
def sortBy (le : String → String → Bool) : List String → List String
  | [] => []
  | s :: ss => insertBy le s (sortBy le ss)

/-- Number of occurrences of term `t` in an analyzed document. -/
def termCount (t : String) (terms : List String) : Nat :=
  (terms.filter (fun u => u == t)).length

/-- Number of analyzed documents containing term `t`. -/
def docFreq (t : String) (docs : List (List String)) : Nat :=
  (docs.filter (fun d => d.contains t)).length

/-- `TfidfVectorizer.fit` on the analyzed documents: collect the sorted
vocabulary; raise `ValueError("empty vocabulary")` if no term was seen;
prune terms with document frequency above `max_df * n_docs` (raising if
nothing remains); keep at most `max_features` terms, preferring higher
corpus frequency, ties broken alphabetically, preserving alphabetical
order among the kept terms. -/
def buildVocab (cfg : VectorizerConfig) (docs : List String) :
    Except String (List String) :=
  let analyzed := docs.map (analyze cfg)
  let vocab0 := sortBy strLe analyzed.flatten.dedup
  if vocab0 = [] then .error "empty vocabulary"
  else
    let vocab1 := match cfg.maxDf with
      | none => vocab0
      | some q => vocab0.filter
          (fun t => decide ((docFreq t analyzed : ℚ) ≤ q * (docs.length : ℚ)))
    if vocab1 = [] then .error "no terms remain after pruning"
    else match cfg.maxFeatures with
      | none => .ok vocab1
      | some m =>
        let freq := fun t => termCount t analyzed.flatten
        let ranked := sortBy
          (fun a b => freq b < freq a || (freq a == freq b && strLe a b)) vocab1
        .ok (vocab1.filter (fun t => (ranked.take m).contains t))

/-- `TfidfVectorizer.transform` on one document, up to L2 normalization
(which cosine similarity is invariant under; it is carried by the
`NormScales` parameters): the vector over the trained vocabulary whose
component for term `t` is `count(t) * idf(t)`.  Tokens absent from the
vocabulary contribute nothing; a document sharing no term with the
vocabulary yields the zero vector. -/
def tfidfTransform (cfg : VectorizerConfig) (vocab : List String)
    (idf : String → ℚ) (text : String) : List ℚ :=
  let terms := analyze cfg text
  vocab.map (fun t => (termCount t terms : ℚ) * idf t)

/-! ## Numeric helpers -/

/-- Dot product of two vectors (componentwise product, summed; all
vectors compared share the vocabulary length). -/
def dotQ (u v : List ℚ) : ℚ :=
  (List.zipWith (fun a b => a * b) u v).sum

/-! ## Data model -/

/-- `Video` dataclass: title, description, category. -/
structure Video where
  title : String
  description : String
  category : String
deriving DecidableEq

/-- Placeholder for out-of-range list access (never reached on the
index lists the code produces, which are permutations of the corpus
index range). -/
def dummyVideo : Video := ⟨"", "", ""⟩

/-- The three feature weights held by the recommender
(`title_weight`, `description_weight`, `category_weight`). -/
structure Weights where
  title : ℚ
  description : ℚ
  category : ℚ
deriving DecidableEq

/-- The constructor defaults: 0.4, 0.4, 0.2. -/
def defaultWeights : Weights := ⟨2/5, 2/5, 1/5⟩

/-- Python `round(x)` (round half to even), exactly on rationals. -/
def pyRoundInt (x : ℚ) : ℤ :=
  if x - (⌊x⌋ : ℚ) < 1/2 then ⌊x⌋
  else if (1 : ℚ)/2 < x - (⌊x⌋ : ℚ) then ⌊x⌋ + 1
  else if ⌊x⌋ % 2 = 0 then ⌊x⌋ else ⌊x⌋ + 1

/-- Python `round(y, 2)`: round to two decimal places. -/
def pyRound2 (y : ℚ) : ℚ := (pyRoundInt (y * 100) : ℚ) / 100

/-! ## The ranking loop of `get_recommendations` (source lines 116-138) -/

/-- The self-match test: "Skip if it's the current video"
(`candidate_video.title.lower() == current_video.title.lower() and
candidate_video.category.lower() == current_video.category.lower()`). -/
def selfMatch (cand query : Video) : Bool :=
  lowerStr cand.title == lowerStr query.title &&
  lowerStr cand.category == lowerStr query.category

/-- The category-filter test:
`if category_filter and candidate_video.category.lower() !=
category_filter.lower(): continue`.  `None` and the empty string are
falsy in Python, so no filtering happens for them. -/
def filterSkip (filt : Option String) (cand : Video) : Bool :=
  match filt with
  | none => false
  | some f => !(f == "") && !(lowerStr cand.category == lowerStr f)

/-- A corpus index the loop does not skip. -/
def eligible (videos : List Video) (query : Video) (filt : Option String)
    (idx : Nat) : Bool :=
  !selfMatch (videos.getD idx dummyVideo) query &&
  !filterSkip filt (videos.getD idx dummyVideo)

/-- The pair appended for corpus index `idx`:
`(candidate_video, round(combined_similarities[idx] * 100, 2))`. -/
def scoreEntry (videos : List Video) (combined : List ℚ) (idx : Nat) :
    Video × ℚ :=
  (videos.getD idx dummyVideo, pyRound2 (combined.getD idx 0 * 100))

/-- The key `numpy.argsort` orders indices by: similarity value
ascending, then (its deterministic, stable-on-these-arrays behavior)
index ascending. -/
def argLE (xs : List ℚ) (i j : Nat) : Prop :=
  xs.getD i 0 < xs.getD j 0 ∨ (xs.getD i 0 = xs.getD j 0 ∧ i ≤ j)

instance (xs : List ℚ) : DecidableRel (argLE xs) := fun i j => by
  unfold argLE; infer_instance

/-- `combined_similarities.argsort()`: corpus indices sorted by combined
similarity ascending (ties in index order). -/
def argsortAsc (xs : List ℚ) : List Nat :=
  List.insertionSort (argLE xs) (List.range xs.length)

/-- `similar_indices = combined_similarities.argsort()[::-1]`. -/
def similarIndices (xs : List ℚ) : List Nat := (argsortAsc xs).reverse

/-- The loop `for idx in similar_indices: ...` accumulating
`recommendations`, with both `continue` branches and the
`len(recommendations) >= num_recommendations` break. -/
def collectRecs (videos : List Video) (query : Video) (combined : List ℚ)
    (filt : Option String) (k : Nat) :
    List Nat → List (Video × ℚ) → List (Video × ℚ)
  | [], acc => acc
  | idx :: rest, acc =>
    if selfMatch (videos.getD idx dummyVideo) query then
      collectRecs videos query combined filt k rest acc
    else if filterSkip filt (videos.getD idx dummyVideo) then
      collectRecs videos query combined filt k rest acc
    else if k ≤ (acc ++ [scoreEntry videos combined idx]).length then
      acc ++ [scoreEntry videos combined idx]
    else
      collectRecs videos query combined filt k rest
        (acc ++ [scoreEntry videos combined idx])

/-- The ranking stage of `get_recommendations`, as a function of the
combined-similarity vector: sort indices descending, walk them skipping
self-matches and filtered-out categories, and collect up to `k` scored
entries. -/
def rankCandidates (videos : List Video) (query : Video) (combined : List ℚ)
    (k : Nat) (filt : Option String) : List (Video × ℚ) :=
  collectRecs videos query combined filt k (similarIndices combined) []

/-- The descending index walk restricted to the entries the loop keeps. -/
def rankedIndices (videos : List Video) (query : Video) (combined : List ℚ)
    (filt : Option String) : List Nat :=
  (similarIndices combined).filter (eligible videos query filt)

/-- The number of corpus indices that are not skipped. -/
def eligibleCount (videos : List Video) (query : Video)
    (filt : Option String) : Nat :=
  ((List.range videos.length).filter (eligible videos query filt)).length

/-- `combined_similarities = w_title*title_sims + w_desc*desc_sims +
w_cat*cat_sims` (componentwise over three equal-length arrays). -/
def combinedSimilarities (w : Weights) :
    List ℚ → List ℚ → List ℚ → List ℚ
  | a :: as, b :: bs, c :: cs =>
    (w.title * a + w.description * b + w.category * c) ::
      combinedSimilarities w as bs cs
  | _, _, _ => []

/-! ## Recommender state: `fit`, `add_new_videos`, `get_recommendations` -/

/-- The abstract per-field IDF weights (irrational reals in sklearn,
taken as arbitrary rationals; see the header). -/
structure IdfValues where
  title : String → ℚ
  description : String → ℚ
  category : String → ℚ

/-- `fun _ => 1`: the instantiation used in concrete evaluations (on
corpora where every term has the same document frequency, the true IDF
is constant; cosine similarity of one-hot / zero count vectors is then
the modeled value exactly). -/
def idfOne : IdfValues := ⟨fun _ => 1, fun _ => 1, fun _ => 1⟩

/-- The abstract inverse-L2-norm scale factors of `cosine_similarity`
(`1/‖v‖`, or 1 when `‖v‖ = 0`): one per query-side vector and one per
cached corpus row per field. -/
structure NormScales where
  qTitle : ℚ
  qDescription : ℚ
  qCategory : ℚ
  rowTitle : Nat → ℚ
  rowDescription : Nat → ℚ
  rowCategory : Nat → ℚ

/-- All scale factors 1: exact for unit-norm (one-hot count, unit IDF)
and zero rows/queries. -/
def scalesOne : NormScales :=
  ⟨1, 1, 1, fun _ => 1, fun _ => 1, fun _ => 1⟩

/-- The recommender state after a successful `fit`: the corpus, the three
trained vocabularies, and the three cached corpus-vector matrices
(`title_vectors`, `description_vectors`, `category_vectors`), one row
per corpus video. -/
structure FittedRecommender where
  weights : Weights
  videos : List Video
  titleVocab : List String
  descriptionVocab : List String
  categoryVocab : List String
  titleVectors : List (List ℚ)
  descriptionVectors : List (List ℚ)
  categoryVectors : List (List ℚ)
deriving DecidableEq

/-- `fit(videos)`: preprocess every field of every video, train the three
vectorizers on their respective columns, and cache the corpus-vector
matrices.  (In Python, `self.videos = videos` happens before the
vectorizer calls, so a raising `fit` leaves a half-updated object; no
query can be served from it, and the model keeps the failure as an
`Except.error`.) -/
def fitRecommender (w : Weights) (idf : IdfValues) (videos : List Video) :
    Except String FittedRecommender :=
  let titles := videos.map (fun v => preprocessText v.title)
  let descriptions := videos.map (fun v => preprocessText v.description)
  let categories := videos.map (fun v => preprocessText v.category)
  match buildVocab titleConfig titles,
        buildVocab descriptionConfig descriptions,
        buildVocab categoryConfig categories with
  | .ok vT, .ok vD, .ok vC =>
    .ok { weights := w, videos := videos,
          titleVocab := vT, descriptionVocab := vD, categoryVocab := vC,
          titleVectors := titles.map (tfidfTransform titleConfig vT idf.title),
          descriptionVectors :=
            descriptions.map (tfidfTransform descriptionConfig vD idf.description),
          categoryVectors :=
            categories.map (tfidfTransform categoryConfig vC idf.category) }
  | .error e, _, _ => .error e
  | .ok _, .error e, _ => .error e
  | .ok _, .ok _, .error e => .error e

/-- `add_new_videos(new_videos)`: `self.videos.extend(new_videos)` then
`self.fit(self.videos)` — append, then a full refit of the extended
corpus. -/
def FittedRecommender.addNewVideos (r : FittedRecommender) (idf : IdfValues)
    (newVideos : List Video) : Except String FittedRecommender :=
  fitRecommender r.weights idf (r.videos ++ newVideos)

/-- One field's similarity array: for each cached corpus row, the modeled
cosine similarity `qScale * rowScale i * ⟨qVec, row i⟩`. -/
def fieldSims (qScale : ℚ) (rowScale : Nat → ℚ) (qVec : List ℚ)
    (rows : List (List ℚ)) : List ℚ :=
  (List.range rows.length).map
    (fun i => qScale * rowScale i * dotQ qVec (rows.getD i []))

/-- The combined-similarity array `get_recommendations` computes for a
query: transform the preprocessed query fields under the trained
vocabularies, take per-field cosine similarities against the cached
rows, and combine them with the feature weights. -/
def FittedRecommender.combinedFor (r : FittedRecommender) (idf : IdfValues)
    (sc : NormScales) (query : Video) : List ℚ :=
  let qT := tfidfTransform titleConfig r.titleVocab idf.title
    (preprocessText query.title)
  let qD := tfidfTransform descriptionConfig r.descriptionVocab idf.description
    (preprocessText query.description)
  let qC := tfidfTransform categoryConfig r.categoryVocab idf.category
    (preprocessText query.category)
  combinedSimilarities r.weights
    (fieldSims sc.qTitle sc.rowTitle qT r.titleVectors)
    (fieldSims sc.qDescription sc.rowDescription qD r.descriptionVectors)
    (fieldSims sc.qCategory sc.rowCategory qC r.categoryVectors)

/-- `get_recommendations(current_video, num_recommendations=5,
category_filter=None)`. -/
def FittedRecommender.getRecommendations (r : FittedRecommender)
    (idf : IdfValues) (sc : NormScales) (query : Video)
    (numRecommendations : Nat := 5) (categoryFilter : Option String := none) :
    List (Video × ℚ) :=
  rankCandidates r.videos query (r.combinedFor idf sc query)
    numRecommendations categoryFilter

/-! ## Concrete corpora for witnesses and counterexamples

The tokens used ("hello", "aaa", …) are ASCII, at least two characters,
and neither in sklearn's stop list nor repeated across documents, so on
these corpora every term has document frequency 1, the true IDF is the
same constant for every term, the count vectors are one-hot or zero, and
the modeled similarities under `idfOne`/`scalesOne` are exactly the
values the Python code computes. -/

/-- Corpus entry 0: same title and category as `demoB`, different
description. -/
def demoA : Video := ⟨"hello", "aaa bbb", "xx"⟩

/-- Corpus entry 1: same title and category as `demoA`, different
description. -/
def demoB : Video := ⟨"hello", "ccc ddd", "xx"⟩

/-- A query sharing `demoA`/`demoB`'s title but not their category, and
sharing no description or category token with the corpus: both corpus
entries get combined similarity `0.4·1 + 0.4·0 + 0.2·0 = 2/5` — an exact
tie. -/
def demoQuery : Video := ⟨"hello", "eee fff", "yy"⟩

/-- The recommender fitted on `[demoA, demoB]` with the default weights. -/
def demoRec : FittedRecommender :=
  match fitRecommender defaultWeights idfOne [demoA, demoB] with
  | .ok r => r
  | .error _ =>
    { weights := defaultWeights, videos := [],
      titleVocab := [], descriptionVocab := [], categoryVocab := [],
      titleVectors := [], descriptionVectors := [], categoryVectors := [] }

/-- A video added after the initial fit (for the `add_new_videos`
witness). -/
def demoNew : Video := ⟨"newvid", "ggg hhh", "zz"⟩

/-- The recommender after `add_new_videos([demoNew])` on `demoRec`. -/
def demoRec3 : FittedRecommender :=
  match demoRec.addNewVideos idfOne [demoNew] with
  | .ok r => r
  | .error _ =>
    { weights := defaultWeights, videos := [],
      titleVocab := [], descriptionVocab := [], categoryVocab := [],
      titleVectors := [], descriptionVectors := [], categoryVectors := [] }

/-- Out-of-range weights the constructor accepts: `title_weight=2`. -/
def bigWeights : Weights := ⟨2, 2/5, 1/5⟩

/-- Corpus entry for the score-bound counterexample; its title equals
the query's (cosine 1) while its category differs (so it is not
self-excluded). -/
def boundA : Video := ⟨"hello", "aaa", "xx"⟩

/-- Second corpus entry, orthogonal to the query in every field. -/
def boundB : Video := ⟨"world", "bbb", "zz"⟩

/-- Query for the score-bound counterexample. -/
def boundQuery : Video := ⟨"hello", "qqq", "yy"⟩

/-- The recommender fitted on `[boundA, boundB]` with `bigWeights`. -/
def boundRec : FittedRecommender :=
  match fitRecommender bigWeights idfOne [boundA, boundB] with
  | .ok r => r
  | .error _ =>
    { weights := bigWeights, videos := [],
      titleVocab := [], descriptionVocab := [], categoryVocab := [],
      titleVectors := [], descriptionVectors := [], categoryVectors := [] }

/-! ## Helper lemmas -/

theorem pyRoundInt_nonneg {x : ℚ} (h0 : 0 ≤ x) : 0 ≤ pyRoundInt x := by
  unfold pyRoundInt
  have hf : (0 : ℤ) ≤ ⌊x⌋ := Int.floor_nonneg.mpr h0
  split_ifs <;> omega

theorem pyRoundInt_le {x : ℚ} {M : ℤ} (hM : x ≤ (M : ℚ)) : pyRoundInt x ≤ M := by
  have hfl : ⌊x⌋ ≤ M := by
    have := Int.floor_le_floor hM
    rwa [Int.floor_intCast] at this
  unfold pyRoundInt
  split_ifs with h1 h2 h3
  · exact hfl
  · have hx : (⌊x⌋ : ℚ) < (M : ℚ) := by linarith [Int.floor_le x]
    have : ⌊x⌋ < M := by exact_mod_cast hx
    omega
  · exact hfl
  · have h12 : x - (⌊x⌋ : ℚ) = 1/2 := le_antisymm (not_lt.mp h2) (not_lt.mp h1)
    have hx : (⌊x⌋ : ℚ) < (M : ℚ) := by linarith
    have : ⌊x⌋ < M := by exact_mod_cast hx
    omega

theorem pyRound2_mem_Icc {c : ℚ} (h0 : 0 ≤ c) (h1 : c ≤ 1) :
    0 ≤ pyRound2 (c * 100) ∧ pyRound2 (c * 100) ≤ 100 := by
  have hz0 : 0 ≤ c * 100 * 100 := by positivity
  have hzM : c * 100 * 100 ≤ ((10000 : ℤ) : ℚ) := by push_cast; linarith
  have r0 := pyRoundInt_nonneg hz0
  have rM := pyRoundInt_le hzM
  have r0' : (0 : ℚ) ≤ (pyRoundInt (c * 100 * 100) : ℚ) := by exact_mod_cast r0
  have rM' : (pyRoundInt (c * 100 * 100) : ℚ) ≤ 10000 := by exact_mod_cast rM
  unfold pyRound2
  constructor
  · have : c * 100 * 100 = c * 100 * 100 := rfl
    positivity
  · rw [div_le_iff₀ (by norm_num : (0:ℚ) < 100)]
    calc (pyRoundInt (c * 100 * 100) : ℚ) ≤ 10000 := rM'
    _ = 100 * 100 := by norm_num

theorem eligible_iff {videos : List Video} {query : Video}
    {filt : Option String} {idx : Nat} :
    eligible videos query filt idx = true ↔
      selfMatch (videos.getD idx dummyVideo) query = false ∧
      filterSkip filt (videos.getD idx dummyVideo) = false := by
  simp [eligible]

instance (xs : List ℚ) : IsTotal Nat (argLE xs) := ⟨by
  intro i j
  rcases lt_trichotomy (xs.getD i 0) (xs.getD j 0) with h | h | h
  · exact Or.inl (Or.inl h)
  · rcases Nat.le_total i j with hij | hij
    · exact Or.inl (Or.inr ⟨h, hij⟩)
    · exact Or.inr (Or.inr ⟨h.symm, hij⟩)
  · exact Or.inr (Or.inl h)⟩

instance (xs : List ℚ) : IsTrans Nat (argLE xs) := ⟨by
  intro i j l hij hjl
  rcases hij with h1 | ⟨e1, m1⟩
  · rcases hjl with h2 | ⟨e2, m2⟩
    · exact Or.inl (h1.trans h2)
    · exact Or.inl (by rw [← e2]; exact h1)
  · rcases hjl with h2 | ⟨e2, m2⟩
    · exact Or.inl (by rw [e1]; exact h2)
    · exact Or.inr ⟨e1.trans e2, m1.trans m2⟩⟩

instance (xs : List ℚ) : IsAntisymm Nat (argLE xs) := ⟨by
  intro i j hij hji
  rcases hij with h1 | ⟨e1, m1⟩ <;> rcases hji with h2 | ⟨e2, m2⟩
  · exact absurd h2 (lt_asymm h1)
  · exact absurd e2 (ne_of_gt h1)
  · exact absurd e1 (ne_of_gt h2)
  · exact Nat.le_antisymm m1 m2⟩

theorem pair_sublist_range {i j n : Nat} (hij : i < j) (hj : j < n) :
    List.Sublist [i, j] (List.range n) := by
  have h1 : List.Sublist [i] (List.range j) :=
    List.singleton_sublist.mpr (List.mem_range.mpr hij)
  have h2 : List.Sublist ([i] ++ [j]) (List.range j ++ [j]) :=
    h1.append (List.Sublist.refl [j])
  have h4 : List.Sublist [i, j] (List.range (j + 1)) := by
    simpa [List.range_succ] using h2
  exact h4.trans (List.range_sublist.mpr hj)

theorem similarIndices_perm (xs : List ℚ) :
    (similarIndices xs).Perm (List.range xs.length) := by
  unfold similarIndices argsortAsc
  exact (List.reverse_perm _).trans (List.perm_insertionSort _ _)

theorem mem_similarIndices {xs : List ℚ} {i : Nat} :
    i ∈ similarIndices xs ↔ i < xs.length := by
  rw [(similarIndices_perm xs).mem_iff, List.mem_range]

theorem collectRecs_mem {videos : List Video} {query : Video}
    {combined : List ℚ} {filt : Option String} {k : Nat} :
    ∀ {idxs : List Nat} {acc : List (Video × ℚ)} {p : Video × ℚ},
      p ∈ collectRecs videos query combined filt k idxs acc →
      p ∈ acc ∨ ∃ idx, idx ∈ idxs ∧ eligible videos query filt idx = true ∧
        p = scoreEntry videos combined idx := by
  intro idxs
  induction idxs with
  | nil =>
    intro acc p hp
    exact Or.inl (by simpa [collectRecs] using hp)
  | cons idx rest ih =>
    intro acc p hp
    by_cases h1 : selfMatch (videos.getD idx dummyVideo) query
    · rw [collectRecs, if_pos h1] at hp
      rcases ih hp with h | ⟨a, ha, he, hpe⟩
      · exact Or.inl h
      · exact Or.inr ⟨a, List.mem_cons_of_mem _ ha, he, hpe⟩
    · by_cases h2 : filterSkip filt (videos.getD idx dummyVideo)
      · rw [collectRecs, if_neg h1, if_pos h2] at hp
        rcases ih hp with h | ⟨a, ha, he, hpe⟩
        · exact Or.inl h
        · exact Or.inr ⟨a, List.mem_cons_of_mem _ ha, he, hpe⟩
      · have helig : eligible videos query filt idx = true := by
          unfold eligible
          rw [Bool.eq_false_iff.mpr h1, Bool.eq_false_iff.mpr h2]
          rfl
        rw [collectRecs, if_neg h1, if_neg h2] at hp
        by_cases h3 : k ≤ (acc ++ [scoreEntry videos combined idx]).length
        · rw [if_pos h3] at hp
          rcases List.mem_append.mp hp with h | h
          · exact Or.inl h
          · exact Or.inr ⟨idx, List.mem_cons_self _ _, helig,
              List.mem_singleton.mp h⟩
        · rw [if_neg h3] at hp
          rcases ih hp with h | ⟨a, ha, he, hpe⟩
          · rcases List.mem_append.mp h with h' | h'
            · exact Or.inl h'
            · exact Or.inr ⟨idx, List.mem_cons_self _ _, helig,
                List.mem_singleton.mp h'⟩
          · exact Or.inr ⟨a, List.mem_cons_of_mem _ ha, he, hpe⟩

theorem collectRecs_take {videos : List Video} {query : Video}
    {combined : List ℚ} {filt : Option String} {k : Nat} (hk : 1 ≤ k) :
    ∀ (idxs : List Nat) (acc : List (Video × ℚ)), acc.length < k →
      collectRecs videos query combined filt k idxs acc =
        acc ++ ((idxs.filter (eligible videos query filt)).take
          (k - acc.length)).map (scoreEntry videos combined) := by
  intro idxs
  induction idxs with
  | nil => intro acc _; simp [collectRecs]
  | cons idx rest ih =>
    intro acc hacc
    by_cases h1 : selfMatch (videos.getD idx dummyVideo) query
    · have he : eligible videos query filt idx = false := by
        unfold eligible; rw [h1]; rfl
      rw [collectRecs, if_pos h1, ih acc hacc]
      simp [List.filter_cons, he]
    · by_cases h2 : filterSkip filt (videos.getD idx dummyVideo)
      · have he : eligible videos query filt idx = false := by
          unfold eligible; rw [Bool.eq_false_iff.mpr h1, h2]; rfl
        rw [collectRecs, if_neg h1, if_pos h2, ih acc hacc]
        simp [List.filter_cons, he]
      · have he : eligible videos query filt idx = true := by
          unfold eligible
          rw [Bool.eq_false_iff.mpr h1, Bool.eq_false_iff.mpr h2]
          rfl
        rw [collectRecs, if_neg h1, if_neg h2]
        by_cases h3 : k ≤ (acc ++ [scoreEntry videos combined idx]).length
        · have hkeq : k = acc.length + 1 := by
            simp only [List.length_append, List.length_singleton] at h3
            omega
          rw [if_pos h3]
          have ht : k - acc.length = 1 := by omega
          simp [List.filter_cons, he, ht]
        · have hlen : (acc ++ [scoreEntry videos combined idx]).length < k := by
            simp only [List.length_append, List.length_singleton] at h3 ⊢
            omega
          rw [if_neg h3, ih _ hlen]
          have ht : k - acc.length = (k - (acc.length + 1)) + 1 := by
            simp only [List.length_append, List.length_singleton] at h3
            omega
          simp only [List.filter_cons, he, if_true, ht, List.take_succ_cons,
            List.length_append, List.length_singleton, List.map_cons,
            List.append_assoc, List.singleton_append, if_pos trivial]

theorem rankCandidates_take {videos : List Video} {query : Video}
    {combined : List ℚ} {k : Nat} {filt : Option String} (hk : 1 ≤ k) :
    rankCandidates videos query combined k filt =
      ((rankedIndices videos query combined filt).take k).map
        (scoreEntry videos combined) := by
  unfold rankCandidates rankedIndices
  rw [collectRecs_take hk _ [] (by simpa using hk)]
  simp

theorem rankCandidates_mem {videos : List Video} {query : Video}
    {combined : List ℚ} {k : Nat} {filt : Option String} {p : Video × ℚ}
    (hp : p ∈ rankCandidates videos query combined k filt) :
    ∃ idx, idx < combined.length ∧ eligible videos query filt idx = true ∧
      p = scoreEntry videos combined idx := by
  rcases collectRecs_mem hp with h | ⟨idx, hidx, he, hpe⟩
  · simp at h
  · exact ⟨idx, mem_similarIndices.mp hidx, he, hpe⟩

theorem rankedIndices_length {videos : List Video} {query : Video}
    {combined : List ℚ} {filt : Option String}
    (hlen : combined.length = videos.length) :
    (rankedIndices videos query combined filt).length =
      eligibleCount videos query filt := by
  unfold rankedIndices eligibleCount
  rw [((similarIndices_perm combined).filter _).length_eq, hlen]

theorem fieldSims_length {q : ℚ} {rs : Nat → ℚ} {v : List ℚ}
    {rows : List (List ℚ)} : (fieldSims q rs v rows).length = rows.length := by
  simp [fieldSims]

theorem combinedSimilarities_length {w : Weights} :
    ∀ (as bs cs : List ℚ), bs.length = as.length → cs.length = as.length →
      (combinedSimilarities w as bs cs).length = as.length := by
  intro as
  induction as with
  | nil =>
    intro bs cs h1 h2
    cases bs <;> cases cs <;> simp_all [combinedSimilarities]
  | cons a as ih =>
    intro bs cs h1 h2
    cases bs with
    | nil => simp at h1
    | cons b bs =>
      cases cs with
      | nil => simp at h2
      | cons c cs =>
        simp only [combinedSimilarities, List.length_cons]
        rw [ih bs cs (by simpa using h1) (by simpa using h2)]

theorem combinedSimilarities_mem {w : Weights} :
    ∀ (as bs cs : List ℚ) (x : ℚ), x ∈ combinedSimilarities w as bs cs →
      ∃ a b c, a ∈ as ∧ b ∈ bs ∧ c ∈ cs ∧
        x = w.title * a + w.description * b + w.category * c := by
  intro as
  induction as with
  | nil => intro bs cs x hx; cases bs <;> cases cs <;> simp [combinedSimilarities] at hx
  | cons a as ih =>
    intro bs cs x hx
    cases bs with
    | nil => simp [combinedSimilarities] at hx
    | cons b bs =>
      cases cs with
      | nil => simp [combinedSimilarities] at hx
      | cons c cs =>
        rcases List.mem_cons.mp hx with h | h
        · exact ⟨a, b, c, List.mem_cons_self _ _, List.mem_cons_self _ _,
            List.mem_cons_self _ _, h⟩
        · rcases ih bs cs x h with ⟨a', b', c', ha, hb, hc, hx'⟩
          exact ⟨a', b', c', List.mem_cons_of_mem _ ha,
            List.mem_cons_of_mem _ hb, List.mem_cons_of_mem _ hc, hx'⟩

theorem dotQ_replicate_zero (n : Nat) (v : List ℚ) :
    dotQ (List.replicate n 0) v = 0 := by
  induction n generalizing v with
  | zero => simp [dotQ]
  | succ m ih =>
    cases v with
    | nil => simp [dotQ]
    | cons x v =>
      simp only [dotQ, List.replicate_succ, List.zipWith_cons_cons,
        List.sum_cons, zero_mul, zero_add]
      exact ih v

theorem fitRecommender_ok {w : Weights} {idf : IdfValues} {vids : List Video}
    {r : FittedRecommender} (h : fitRecommender w idf vids = .ok r) :
    r.weights = w ∧ r.videos = vids ∧
    r.titleVectors = (vids.map fun v => preprocessText v.title).map
      (tfidfTransform titleConfig r.titleVocab idf.title) ∧
    r.descriptionVectors = (vids.map fun v => preprocessText v.description).map
      (tfidfTransform descriptionConfig r.descriptionVocab idf.description) ∧
    r.categoryVectors = (vids.map fun v => preprocessText v.category).map
      (tfidfTransform categoryConfig r.categoryVocab idf.category) := by
  simp only [fitRecommender] at h
  split at h
  · rw [Except.ok.injEq] at h
    subst h
    exact ⟨rfl, rfl, rfl, rfl, rfl⟩
  · exact absurd h (by simp)
  · exact absurd h (by simp)
  · exact absurd h (by simp)

theorem combinedFor_length {w : Weights} {idf : IdfValues} {vids : List Video}
    {r : FittedRecommender} (h : fitRecommender w idf vids = .ok r)
    (idf2 : IdfValues) (sc : NormScales) (query : Video) :
    (r.combinedFor idf2 sc query).length = r.videos.length := by
  obtain ⟨-, hv, hT, hD, hC⟩ := fitRecommender_ok h
  unfold FittedRecommender.combinedFor
  rw [combinedSimilarities_length]
  · rw [fieldSims_length, hT, hv]; simp
  · rw [fieldSims_length, fieldSims_length, hT, hD]; simp
  · rw [fieldSims_length, fieldSims_length, hT, hC]; simp

theorem collectRecs_empty_filter {videos : List Video} {query : Video}
    {combined : List ℚ} {k : Nat} :
    ∀ (idxs : List Nat) (acc : List (Video × ℚ)),
      collectRecs videos query combined (some "") k idxs acc =
        collectRecs videos query combined none k idxs acc := by
  intro idxs
  induction idxs with
  | nil => intro acc; rfl
  | cons idx rest ih =>
    intro acc
    have hfsE : ¬(filterSkip (some "") (videos.getD idx dummyVideo) = true) := by
      simp [filterSkip]
    have hfsN : ¬(filterSkip none (videos.getD idx dummyVideo) = true) := by
      simp [filterSkip]
    by_cases h1 : selfMatch (videos.getD idx dummyVideo) query
    · rw [collectRecs, if_pos h1, collectRecs, if_pos h1]
      exact ih acc
    · by_cases h3 : k ≤ (acc ++ [scoreEntry videos combined idx]).length
      · rw [collectRecs, if_neg h1, collectRecs, if_neg h1, if_neg hfsE,
          if_neg hfsN, if_pos h3, if_pos h3]
      · rw [collectRecs, if_neg h1, collectRecs, if_neg h1, if_neg hfsE,
          if_neg hfsN, if_neg h3, if_neg h3]
        exact ih _

/-! ## Claims -/

/-- **C1, corrected.**  The original claim (stable tie-break: on exactly
equal combined scores the smaller corpus index comes first) is false:
`argsort()` orders ascending with ties in index order, and the `[::-1]`
reversal therefore puts exact ties in *descending* index order.  Amended:
whenever two corpus entries have exactly equal combined scores and both
survive the skip tests, the entry with the larger corpus index (most
recently inserted) appears earlier; with `topK` at least the number of
eligible candidates, the returned sequence is exactly the
eligible-filtered descending index walk, in which `j` precedes `i`. -/
theorem C1_tie_larger_index_first (videos : List Video) (query : Video)
    (combined : List ℚ) (filt : Option String) (i j k : Nat)
    (hij : i < j) (hj : j < combined.length)
    (heq : combined.getD i 0 = combined.getD j 0)
    (hei : eligible videos query filt i = true)
    (hej : eligible videos query filt j = true)
    (hk : (rankedIndices videos query combined filt).length ≤ k) :
    List.Sublist [j, i] (rankedIndices videos query combined filt) ∧
    rankCandidates videos query combined k filt =
      (rankedIndices videos query combined filt).map
        (scoreEntry videos combined) := by
  have hle : argLE combined i j := Or.inr ⟨heq, Nat.le_of_lt hij⟩
  have hpair : List.Sublist [i, j] (List.range combined.length) :=
    pair_sublist_range hij hj
  have hsorted : List.Sublist [i, j] (argsortAsc combined) := by
    unfold argsortAsc
    exact List.pair_sublist_insertionSort' hle hpair.subperm
  have hrev : List.Sublist [j, i] (similarIndices combined) := by
    unfold similarIndices
    simpa using hsorted.reverse
  have hfilter : List.Sublist [j, i]
      (rankedIndices videos query combined filt) := by
    unfold rankedIndices
    have hsub := hrev.filter (eligible videos query filt)
    rwa [show List.filter (eligible videos query filt) [j, i] = [j, i] by
      simp [List.filter_cons, hei, hej]] at hsub
  refine ⟨hfilter, ?_⟩
  have h2 : 2 ≤ (rankedIndices videos query combined filt).length := by
    simpa using hfilter.length_le
  rw [rankCandidates_take (by omega), List.take_of_length_le hk]

set_option maxRecDepth 100000 in
unseal Rat.add Rat.mul Rat.inv Rat.sub in
/-- Witness for `C1_tie_larger_index_first` at the tie corpus
`[demoA, demoB]` (indices 0 and 1, equal combined scores `2/5`). -/
theorem C1_tie_larger_index_first_witness :
    ((0 : Nat) < 1 ∧ 1 < ([(2 : ℚ)/5, 2/5]).length ∧
     ([(2 : ℚ)/5, 2/5]).getD 0 0 = ([(2 : ℚ)/5, 2/5]).getD 1 0 ∧
     eligible [demoA, demoB] demoQuery none 0 = true ∧
     eligible [demoA, demoB] demoQuery none 1 = true ∧
     (rankedIndices [demoA, demoB] demoQuery [2/5, 2/5] none).length ≤ 5) ∧
    (List.Sublist [1, 0] (rankedIndices [demoA, demoB] demoQuery [2/5, 2/5] none) ∧
     rankCandidates [demoA, demoB] demoQuery [2/5, 2/5] 5 none =
       (rankedIndices [demoA, demoB] demoQuery [2/5, 2/5] none).map
         (scoreEntry [demoA, demoB] [2/5, 2/5])) :=
  ⟨⟨by decide, by decide, by decide, by decide, by decide, by decide⟩,
   C1_tie_larger_index_first [demoA, demoB] demoQuery [2/5, 2/5] none 0 1 5
     (by decide) (by decide) (by decide) (by decide) (by decide) (by decide)⟩

set_option maxRecDepth 100000 in
unseal Rat.add Rat.mul Rat.inv Rat.sub in
/-- **C1, counterexample.**  On the corpus `[demoA, demoB]` the two
(distinct) entries tie exactly at combined score `2/5`, yet the returned
order is `[demoB, demoA]`: the entry with the *larger* corpus index comes
first, not the first-inserted one as the claim states. -/
theorem C1_counterexample :
    demoRec.videos = [demoA, demoB] ∧
    demoRec.combinedFor idfOne scalesOne demoQuery = [2/5, 2/5] ∧
    (demoRec.getRecommendations idfOne scalesOne demoQuery 5 none).map
      Prod.fst = [demoB, demoA] ∧
    demoB ≠ demoA :=
  ⟨by decide, by decide, by decide, by decide⟩

/-- **C2, corrected (amended part).**  `fit` on an empty corpus does not
succeed: scikit-learn's `fit_transform` raises
`ValueError("empty vocabulary ...")` on zero documents, so no fitted
state (and hence no query result, empty or otherwise) exists for an
empty corpus. -/
theorem C2_empty_fit_raises (w : Weights) (idf : IdfValues) :
    fitRecommender w idf [] = .error "empty vocabulary" := rfl

/-- **C2, counterexample.**  `fit([])` does not yield a fitted
recommender, contradicting the claim that it succeeds with empty
vocabularies and that subsequent queries return empty results. -/
theorem C2_counterexample :
    (fitRecommender defaultWeights idfOne []).toOption = none := by decide

/-- **C3, confirmed.**  Self-exclusion: no entry of the returned sequence
has both title and category case-insensitively equal to the query's,
whatever the descriptions, the corpus, the weights, the IDF values and
the norm scales. -/
theorem C3_self_exclusion (r : FittedRecommender) (idf : IdfValues)
    (sc : NormScales) (query : Video) (k : Nat) (filt : Option String)
    (p : Video × ℚ)
    (hp : p ∈ r.getRecommendations idf sc query k filt) :
    ¬(lowerStr p.1.title = lowerStr query.title ∧
      lowerStr p.1.category = lowerStr query.category) := by
  have hp' : p ∈ rankCandidates r.videos query
      (r.combinedFor idf sc query) k filt := hp
  rcases rankCandidates_mem hp' with ⟨idx, -, he, hpe⟩
  rw [eligible_iff] at he
  obtain ⟨hsm, -⟩ := he
  rintro ⟨ht, hc⟩
  rw [hpe] at ht hc
  simp only [scoreEntry] at ht hc
  have hT : selfMatch (r.videos.getD idx dummyVideo) query = true := by
    unfold selfMatch
    rw [ht, hc]
    simp
  rw [hT] at hsm
  exact absurd hsm (by simp)

set_option maxRecDepth 100000 in
unseal Rat.add Rat.mul Rat.inv Rat.sub in
/-- Witness for `C3_self_exclusion`: the entry `(demoB, 40)` is returned
for `demoQuery` and indeed does not match it on title+category. -/
theorem C3_self_exclusion_witness :
    ((demoB, (40 : ℚ)) ∈
      demoRec.getRecommendations idfOne scalesOne demoQuery 5 none) ∧
    ¬(lowerStr demoB.title = lowerStr demoQuery.title ∧
      lowerStr demoB.category = lowerStr demoQuery.category) :=
  ⟨by decide,
   C3_self_exclusion demoRec idfOne scalesOne demoQuery 5 none
     (demoB, 40) (by decide)⟩

/-- **C10, confirmed.**  Passing the empty string as `category_filter`
applies no filtering at all (the empty string is falsy in Python's
`if category_filter and ...`): the result is identical to passing no
filter. -/
theorem C10_empty_filter_noop (r : FittedRecommender) (idf : IdfValues)
    (sc : NormScales) (query : Video) (k : Nat) :
    r.getRecommendations idf sc query k (some "") =
      r.getRecommendations idf sc query k none := by
  show rankCandidates r.videos query (r.combinedFor idf sc query) k (some "")
    = rankCandidates r.videos query (r.combinedFor idf sc query) k none
  unfold rankCandidates
  exact collectRecs_empty_filter _ _

/-- **C4, corrected (amended part).**  Every returned score equals
`round(combined[i] * 100, 2)` for its corpus index `i` — this part of
the claim holds for every weight configuration.  The `[0, 100]` bound,
however, holds only when the three weights are nonnegative and sum to at
most 1 (as the defaults `0.4/0.4/0.2` do); cosine similarities of
nonnegative TF-IDF vectors lie in `[0, 1]`, stated here as hypotheses on
the three similarity arrays.  The constructor accepts arbitrary weights,
and e.g. `title_weight = 2` produces the score 200 (see the
counterexample). -/
theorem C4_score_formula_and_bounds (w : Weights) (sT sD sC : List ℚ)
    (videos : List Video) (query : Video) (filt : Option String) (k : Nat)
    (p : Video × ℚ)
    (hT : ∀ x ∈ sT, 0 ≤ x ∧ x ≤ 1) (hD : ∀ x ∈ sD, 0 ≤ x ∧ x ≤ 1)
    (hC : ∀ x ∈ sC, 0 ≤ x ∧ x ≤ 1)
    (hw0 : 0 ≤ w.title ∧ 0 ≤ w.description ∧ 0 ≤ w.category)
    (hw1 : w.title + w.description + w.category ≤ 1)
    (hp : p ∈ rankCandidates videos query
      (combinedSimilarities w sT sD sC) k filt) :
    (∃ i, i < (combinedSimilarities w sT sD sC).length ∧
      p = scoreEntry videos (combinedSimilarities w sT sD sC) i) ∧
    0 ≤ p.2 ∧ p.2 ≤ 100 := by
  rcases rankCandidates_mem hp with ⟨idx, hidx, -, hpe⟩
  refine ⟨⟨idx, hidx, hpe⟩, ?_⟩
  have hcm : (combinedSimilarities w sT sD sC).getD idx 0 ∈
      combinedSimilarities w sT sD sC := by
    rw [List.getD_eq_getElem _ _ hidx]
    exact List.getElem_mem hidx
  rcases combinedSimilarities_mem _ _ _ _ hcm with ⟨a, b, c, ha, hb, hcc, hx⟩
  obtain ⟨ha0, ha1⟩ := hT a ha
  obtain ⟨hb0, hb1⟩ := hD b hb
  obtain ⟨hc0, hc1⟩ := hC c hcc
  obtain ⟨hw0t, hw0d, hw0c⟩ := hw0
  have h0 : 0 ≤ (combinedSimilarities w sT sD sC).getD idx 0 := by
    rw [hx]
    have := mul_nonneg hw0t ha0
    have := mul_nonneg hw0d hb0
    have := mul_nonneg hw0c hc0
    linarith
  have h1 : (combinedSimilarities w sT sD sC).getD idx 0 ≤ 1 := by
    rw [hx]
    have hta : w.title * a ≤ w.title := by nlinarith
    have htb : w.description * b ≤ w.description := by nlinarith
    have htc : w.category * c ≤ w.category := by nlinarith
    linarith
  have hbounds := pyRound2_mem_Icc h0 h1
  rw [hpe]
  simpa [scoreEntry] using hbounds

set_option maxRecDepth 100000 in
unseal Rat.add Rat.mul Rat.inv Rat.sub in
/-- Witness for `C4_score_formula_and_bounds` at the default weights and
the tie corpus (per-field similarities `[1,1]`, `[0,0]`, `[0,0]`). -/
theorem C4_score_formula_and_bounds_witness :
    ((∀ x ∈ [(1 : ℚ), 1], 0 ≤ x ∧ x ≤ 1) ∧
     (∀ x ∈ [(0 : ℚ), 0], 0 ≤ x ∧ x ≤ 1) ∧
     (0 ≤ defaultWeights.title ∧ 0 ≤ defaultWeights.description ∧
       0 ≤ defaultWeights.category) ∧
     defaultWeights.title + defaultWeights.description +
       defaultWeights.category ≤ 1 ∧
     (demoB, (40 : ℚ)) ∈ rankCandidates [demoA, demoB] demoQuery
       (combinedSimilarities defaultWeights [1, 1] [0, 0] [0, 0]) 5 none) ∧
    ((∃ i, i < (combinedSimilarities defaultWeights [1, 1] [0, 0] [0, 0]).length ∧
       (demoB, (40 : ℚ)) = scoreEntry [demoA, demoB]
         (combinedSimilarities defaultWeights [1, 1] [0, 0] [0, 0]) i) ∧
     0 ≤ ((demoB, (40 : ℚ))).2 ∧ ((demoB, (40 : ℚ))).2 ≤ 100) :=
  ⟨⟨by decide, by decide, by decide, by decide, by decide⟩,
   C4_score_formula_and_bounds defaultWeights [1, 1] [0, 0] [0, 0]
     [demoA, demoB] demoQuery none 5 (demoB, 40)
     (by decide) (by decide) (by decide) (by decide) (by decide) (by decide)⟩

set_option maxRecDepth 100000 in
unseal Rat.add Rat.mul Rat.inv Rat.sub in
/-- **C4, counterexample.**  With constructor weights
`title_weight = 2, description_weight = 0.4, category_weight = 0.2`
(accepted without validation) and a query whose title coincides with a
non-self-matching corpus entry's, the returned score is 200 — outside
`[0, 100]`.  So the claim's "every weight configuration the ranker can
be constructed with" is false. -/
theorem C4_counterexample :
    (boundRec.getRecommendations idfOne scalesOne boundQuery 5 none).map
      Prod.snd = [200, 0] ∧
    ¬((200 : ℚ) ≤ 100) :=
  ⟨by decide, by norm_num⟩

/-- **C5, confirmed.**  For a fitted corpus and `topK ≥ 1`, the returned
sequence has length `min topK (number of eligible candidates)` — in
particular at most `topK`; returning fewer than `topK` (even zero) just
means the eligible candidates ran out. -/
theorem C5_topk_length (w : Weights) (idf : IdfValues) (vids : List Video)
    (r : FittedRecommender) (h : fitRecommender w idf vids = .ok r)
    (idf2 : IdfValues) (sc : NormScales) (query : Video) (k : Nat)
    (filt : Option String) (hk : 1 ≤ k) :
    (r.getRecommendations idf2 sc query k filt).length =
      min k (eligibleCount r.videos query filt) ∧
    (r.getRecommendations idf2 sc query k filt).length ≤ k := by
  have hlen := combinedFor_length h idf2 sc query
  have he : r.getRecommendations idf2 sc query k filt =
      ((rankedIndices r.videos query (r.combinedFor idf2 sc query) filt).take
        k).map (scoreEntry r.videos (r.combinedFor idf2 sc query)) :=
    rankCandidates_take hk
  rw [he, List.length_map, List.length_take, rankedIndices_length hlen]
  exact ⟨rfl, min_le_left _ _⟩

set_option maxRecDepth 100000 in
unseal Rat.add Rat.mul Rat.inv Rat.sub in
/-- Witness for `C5_topk_length`: on the two-video demo corpus with
`topK = 1`, exactly `min 1 2 = 1` entry is returned. -/
theorem C5_topk_length_witness :
    fitRecommender defaultWeights idfOne [demoA, demoB] = .ok demoRec ∧
    1 ≤ 1 ∧
    ((demoRec.getRecommendations idfOne scalesOne demoQuery 1 none).length =
      min 1 (eligibleCount demoRec.videos demoQuery none) ∧
     (demoRec.getRecommendations idfOne scalesOne demoQuery 1 none).length ≤ 1) :=
  ⟨rfl, by decide,
   C5_topk_length defaultWeights idfOne [demoA, demoB] demoRec rfl
     idfOne scalesOne demoQuery 1 none (by decide)⟩

/-- **C6, corrected (amended part).**  When a *non-empty*
`category_filter` string is supplied, every returned video's category
case-insensitively equals the filter.  For the empty string the claim
fails, because `if category_filter and ...` is skipped for falsy values
(see the counterexample and C10). -/
theorem C6_category_filter (r : FittedRecommender) (idf : IdfValues)
    (sc : NormScales) (query : Video) (k : Nat) (f : String) (hf : f ≠ "")
    (p : Video × ℚ)
    (hp : p ∈ r.getRecommendations idf sc query k (some f)) :
    lowerStr p.1.category = lowerStr f := by
  have hp' : p ∈ rankCandidates r.videos query
      (r.combinedFor idf sc query) k (some f) := hp
  rcases rankCandidates_mem hp' with ⟨idx, -, he, hpe⟩
  rw [eligible_iff] at he
  obtain ⟨-, hfs⟩ := he
  rw [hpe]
  simp only [scoreEntry]
  simpa [filterSkip, hf] using hfs

set_option maxRecDepth 100000 in
unseal Rat.add Rat.mul Rat.inv Rat.sub in
/-- Witness for `C6_category_filter` with the non-empty filter `"XX"`
(matching the corpus categories `"xx"` case-insensitively). -/
theorem C6_category_filter_witness :
    ("XX" : String) ≠ "" ∧
    ((demoB, (40 : ℚ)) ∈
      demoRec.getRecommendations idfOne scalesOne demoQuery 5 (some "XX")) ∧
    lowerStr demoB.category = lowerStr "XX" :=
  ⟨by decide, by decide,
   C6_category_filter demoRec idfOne scalesOne demoQuery 5 "XX" (by decide)
     (demoB, 40) (by decide)⟩

set_option maxRecDepth 100000 in
unseal Rat.add Rat.mul Rat.inv Rat.sub in
/-- **C6, counterexample.**  With the (supplied) filter string `""`, the
entry `(demoA, 40)` is returned although its category `"xx"` does not
case-insensitively equal `""` — the claim fails for the empty filter
string. -/
theorem C6_counterexample :
    ((demoA, (40 : ℚ)) ∈
      demoRec.getRecommendations idfOne scalesOne demoQuery 5 (some "")) ∧
    lowerStr demoA.category ≠ lowerStr "" :=
  ⟨by decide, by decide⟩

/-- **C7, confirmed.**  `add_new_videos` appends the new videos at the
end of the held corpus (preserving both relative orders) and delegates to
a full `fit` of the extended corpus; consequently an added video `x`
that does not self-match the query is returned as a candidate for a
large enough `topK`. -/
theorem C7_add_videos_refit (r : FittedRecommender) (idf : IdfValues)
    (newVideos : List Video) (r' : FittedRecommender)
    (h : r.addNewVideos idf newVideos = .ok r')
    (x : Video) (hx : x ∈ newVideos) (query : Video)
    (hsm : selfMatch x query = false) (sc : NormScales) :
    r'.videos = r.videos ++ newVideos ∧
    r.addNewVideos idf newVideos =
      fitRecommender r.weights idf (r.videos ++ newVideos) ∧
    ∃ k, 1 ≤ k ∧
      x ∈ (r'.getRecommendations idf sc query k none).map Prod.fst := by
  have hfit : fitRecommender r.weights idf (r.videos ++ newVideos) = .ok r' := h
  obtain ⟨-, hv, -, -, -⟩ := fitRecommender_ok hfit
  refine ⟨hv, rfl, ?_⟩
  have hxv : x ∈ r'.videos := by
    rw [hv]; exact List.mem_append_right _ hx
  rcases List.mem_iff_getElem.mp hxv with ⟨i, hi, hgi⟩
  have hlen : (r'.combinedFor idf sc query).length = r'.videos.length :=
    combinedFor_length hfit idf sc query
  have hgd : r'.videos.getD i dummyVideo = x := by
    rw [List.getD_eq_getElem _ _ hi, hgi]
  have he : eligible r'.videos query none i = true := by
    unfold eligible
    rw [hgd, hsm]
    rfl
  have hmemr : i ∈ rankedIndices r'.videos query
      (r'.combinedFor idf sc query) none := by
    unfold rankedIndices
    rw [List.mem_filter]
    exact ⟨mem_similarIndices.mpr (by rw [hlen]; exact hi), he⟩
  refine ⟨(rankedIndices r'.videos query
      (r'.combinedFor idf sc query) none).length + 1,
    Nat.succ_le_succ (Nat.zero_le _), ?_⟩
  have hrw : r'.getRecommendations idf sc query
      ((rankedIndices r'.videos query
        (r'.combinedFor idf sc query) none).length + 1) none =
      ((rankedIndices r'.videos query (r'.combinedFor idf sc query) none).take
        ((rankedIndices r'.videos query
          (r'.combinedFor idf sc query) none).length + 1)).map
        (scoreEntry r'.videos (r'.combinedFor idf sc query)) :=
    rankCandidates_take (by omega)
  rw [hrw, List.take_of_length_le (by omega), List.map_map]
  refine List.mem_map.mpr ⟨i, hmemr, ?_⟩
  show (scoreEntry r'.videos (r'.combinedFor idf sc query) i).1 = x
  rw [scoreEntry]
  exact hgd

set_option maxRecDepth 100000 in
unseal Rat.add Rat.mul Rat.inv Rat.sub in
/-- Witness for `C7_add_videos_refit`: adding `demoNew` to the fitted
demo corpus and querying `demoQuery` can return `demoNew`. -/
theorem C7_add_videos_refit_witness :
    demoRec.addNewVideos idfOne [demoNew] = .ok demoRec3 ∧
    demoNew ∈ [demoNew] ∧
    selfMatch demoNew demoQuery = false ∧
    (demoRec3.videos = demoRec.videos ++ [demoNew] ∧
     demoRec.addNewVideos idfOne [demoNew] =
       fitRecommender demoRec.weights idfOne (demoRec.videos ++ [demoNew]) ∧
     ∃ k, 1 ≤ k ∧ demoNew ∈
       (demoRec3.getRecommendations idfOne scalesOne demoQuery k none).map
         Prod.fst) :=
  ⟨rfl, by decide, by decide,
   C7_add_videos_refit demoRec idfOne [demoNew] demoRec3 rfl demoNew
     (by decide) demoQuery (by decide) scalesOne⟩

/-- **C8, confirmed.**  Corpus/vector alignment after `fit` (and hence
after `add_new_videos`, which delegates to `fit`, see C7): each cached
matrix has one row per corpus video; row `i` is the vectorization of
corpus entry `i`'s preprocessed field under the trained vocabulary; and
every returned pair is corpus entry `i` together with the score derived
from `combined[i]`, for some index `i`. -/
theorem C8_corpus_vector_alignment (w : Weights) (idf : IdfValues)
    (vids : List Video) (r : FittedRecommender)
    (h : fitRecommender w idf vids = .ok r) :
    (r.videos = vids ∧ r.titleVectors.length = vids.length ∧
     r.descriptionVectors.length = vids.length ∧
     r.categoryVectors.length = vids.length) ∧
    (∀ i, i < vids.length →
      r.titleVectors.getD i [] = tfidfTransform titleConfig r.titleVocab
        idf.title (preprocessText ((vids.getD i dummyVideo).title)) ∧
      r.descriptionVectors.getD i [] = tfidfTransform descriptionConfig
        r.descriptionVocab idf.description
        (preprocessText ((vids.getD i dummyVideo).description)) ∧
      r.categoryVectors.getD i [] = tfidfTransform categoryConfig
        r.categoryVocab idf.category
        (preprocessText ((vids.getD i dummyVideo).category))) ∧
    (∀ (idf2 : IdfValues) (sc : NormScales) (query : Video) (k : Nat)
        (filt : Option String) (p : Video × ℚ),
      p ∈ r.getRecommendations idf2 sc query k filt →
      ∃ i, i < r.videos.length ∧ p.1 = r.videos.getD i dummyVideo ∧
        p.2 = pyRound2 ((r.combinedFor idf2 sc query).getD i 0 * 100)) := by
  obtain ⟨-, hv, hT, hD, hC⟩ := fitRecommender_ok h
  refine ⟨⟨hv, by rw [hT]; simp, by rw [hD]; simp, by rw [hC]; simp⟩,
    ?_, ?_⟩
  · intro i hi
    refine ⟨?_, ?_, ?_⟩
    · rw [hT, List.getD_eq_getElem _ _ (by simpa using hi),
        List.getElem_map, List.getElem_map, List.getD_eq_getElem _ _ hi]
    · rw [hD, List.getD_eq_getElem _ _ (by simpa using hi),
        List.getElem_map, List.getElem_map, List.getD_eq_getElem _ _ hi]
    · rw [hC, List.getD_eq_getElem _ _ (by simpa using hi),
        List.getElem_map, List.getElem_map, List.getD_eq_getElem _ _ hi]
  · intro idf2 sc query k filt p hp
    have hp' : p ∈ rankCandidates r.videos query
        (r.combinedFor idf2 sc query) k filt := hp
    rcases rankCandidates_mem hp' with ⟨idx, hidx, -, hpe⟩
    have hlen := combinedFor_length h idf2 sc query
    exact ⟨idx, by rw [← hlen]; exact hidx,
      by rw [hpe]; rfl, by rw [hpe]; rfl⟩

set_option maxRecDepth 100000 in
unseal Rat.add Rat.mul Rat.inv Rat.sub in
/-- Witness for `C8_corpus_vector_alignment` at the fitted demo corpus. -/
theorem C8_corpus_vector_alignment_witness :
    fitRecommender defaultWeights idfOne [demoA, demoB] = .ok demoRec ∧
    ((demoRec.videos = [demoA, demoB] ∧
      demoRec.titleVectors.length = [demoA, demoB].length ∧
      demoRec.descriptionVectors.length = [demoA, demoB].length ∧
      demoRec.categoryVectors.length = [demoA, demoB].length) ∧
     (∀ i, i < [demoA, demoB].length →
       demoRec.titleVectors.getD i [] = tfidfTransform titleConfig
         demoRec.titleVocab idfOne.title
         (preprocessText (([demoA, demoB].getD i dummyVideo).title)) ∧
       demoRec.descriptionVectors.getD i [] = tfidfTransform descriptionConfig
         demoRec.descriptionVocab idfOne.description
         (preprocessText (([demoA, demoB].getD i dummyVideo).description)) ∧
       demoRec.categoryVectors.getD i [] = tfidfTransform categoryConfig
         demoRec.categoryVocab idfOne.category
         (preprocessText (([demoA, demoB].getD i dummyVideo).category))) ∧
     (∀ (idf2 : IdfValues) (sc : NormScales) (query : Video) (k : Nat)
         (filt : Option String) (p : Video × ℚ),
       p ∈ demoRec.getRecommendations idf2 sc query k filt →
       ∃ i, i < demoRec.videos.length ∧ p.1 = demoRec.videos.getD i dummyVideo ∧
         p.2 = pyRound2 ((demoRec.combinedFor idf2 sc query).getD i 0 * 100))) :=
  ⟨rfl, C8_corpus_vector_alignment defaultWeights idfOne [demoA, demoB]
    demoRec rfl⟩

/-- **C9, confirmed.**  A query field sharing no analyzer term with the
trained vocabulary transforms to the all-zero vector; the cosine
similarity of that zero vector against every row is 0 (for all inverse
norm scale factors — scikit-learn replaces a zero norm by 1, so no
division error occurs and no exception reaches the caller), and the
whole per-field similarity array is zero. -/
theorem C9_vocabulary_miss (cfg : VectorizerConfig) (vocab : List String)
    (idf : String → ℚ) (text : String)
    (h : ∀ t ∈ analyze cfg text, t ∉ vocab) :
    tfidfTransform cfg vocab idf text = List.replicate vocab.length 0 ∧
    (∀ (a b : ℚ) (row : List ℚ),
      a * b * dotQ (tfidfTransform cfg vocab idf text) row = 0) ∧
    (∀ (a : ℚ) (rs : Nat → ℚ) (rows : List (List ℚ)),
      fieldSims a rs (tfidfTransform cfg vocab idf text) rows =
        List.replicate rows.length 0) := by
  have hz : tfidfTransform cfg vocab idf text =
      List.replicate vocab.length 0 := by
    rw [List.eq_replicate_iff]
    constructor
    · simp [tfidfTransform]
    · intro b hb
      simp only [tfidfTransform] at hb
      rcases List.mem_map.mp hb with ⟨t, ht, rfl⟩
      have hc : termCount t (analyze cfg text) = 0 := by
        rw [termCount, List.length_eq_zero, List.filter_eq_nil_iff]
        intro u hu
        simp only [beq_iff_eq]
        intro hue
        exact h u hu (hue ▸ ht)
      rw [hc]
      simp
  refine ⟨hz, ?_, ?_⟩
  · intro a b row
    rw [hz, dotQ_replicate_zero]
    ring
  · intro a rs rows
    rw [hz, List.eq_replicate_iff]
    constructor
    · simp [fieldSims]
    · intro b hb
      simp only [fieldSims] at hb
      rcases List.mem_map.mp hb with ⟨i, -, rfl⟩
      rw [dotQ_replicate_zero]
      ring

set_option maxRecDepth 100000 in
unseal Rat.add Rat.mul Rat.inv Rat.sub in
/-- Witness for `C9_vocabulary_miss`: the description `"eee fff"` shares
no analyzer term with the demo description vocabulary. -/
theorem C9_vocabulary_miss_witness :
    (∀ t ∈ analyze descriptionConfig "eee fff",
      t ∉ ["aaa", "aaa bbb", "bbb", "ccc", "ccc ddd", "ddd"]) ∧
    (tfidfTransform descriptionConfig
        ["aaa", "aaa bbb", "bbb", "ccc", "ccc ddd", "ddd"] (fun _ => 1)
        "eee fff" =
      List.replicate (["aaa", "aaa bbb", "bbb", "ccc", "ccc ddd", "ddd"] :
        List String).length 0 ∧
     (∀ (a b : ℚ) (row : List ℚ),
       a * b * dotQ (tfidfTransform descriptionConfig
         ["aaa", "aaa bbb", "bbb", "ccc", "ccc ddd", "ddd"] (fun _ => 1)
         "eee fff") row = 0) ∧
     (∀ (a : ℚ) (rs : Nat → ℚ) (rows : List (List ℚ)),
       fieldSims a rs (tfidfTransform descriptionConfig
         ["aaa", "aaa bbb", "bbb", "ccc", "ccc ddd", "ddd"] (fun _ => 1)
         "eee fff") rows = List.replicate rows.length 0)) :=
  ⟨by decide,
   C9_vocabulary_miss descriptionConfig
     ["aaa", "aaa bbb", "bbb", "ccc", "ccc ddd", "ddd"] (fun _ => 1)
     "eee fff" (by decide)⟩

end VideoRecommender

